import Mathlib

/-!
Verification development for the Labor Hour Calculator repository.

The one computational component of the repository is the coverage proposal
engine: the function `calculateProposals` defined in the calculator page.
It takes the five validated numeric form fields and produces a list of
staffing proposals, sorted ascending by cost impact with a stable sort
(ECMAScript `Array.prototype.sort` is stable and the comparator is
`(a, b) => a.costImpact - b.costImpact`).

The embedding below models the numeric fields as rationals (the source
values are IEEE doubles, but every claim under consideration concerns
exact arithmetic on in-range inputs), `Math.ceil` as the integer ceiling,
and the stable ascending sort as `List.insertionSort` by `costImpact`,
which is stable and sorts ascending. The purely presentational string
fields `description` and `details` of a proposal (formatted prose built
from the same numbers) are not modelled; `option` and `efficiency`, which
the claims inspect, are kept verbatim.
-/

namespace LaborCalc

/-- Input record of the engine: the five validated form fields
(`CalculatorFormData` in the source). -/
structure CalculatorFormData where
  numberOfWorkers : ℚ
  currentWeekHoursPerWorker : ℚ
  targetWeekHoursPerWorker : ℚ
  maxExtraHoursPerWorker : ℚ
  hourlyRate : ℚ
deriving DecidableEq

/-- Validity predicate from the zod `calculatorSchema`:
numberOfWorkers in [1, 10000], both per-worker hour fields in [1, 168],
maxExtraHoursPerWorker in [0, 50], hourlyRate in [0.01, 1000].
The schema imposes only these min/max bounds. -/
def calculatorSchema (d : CalculatorFormData) : Prop :=
  1 ≤ d.numberOfWorkers ∧ d.numberOfWorkers ≤ 10000 ∧
  1 ≤ d.currentWeekHoursPerWorker ∧ d.currentWeekHoursPerWorker ≤ 168 ∧
  1 ≤ d.targetWeekHoursPerWorker ∧ d.targetWeekHoursPerWorker ≤ 168 ∧
  0 ≤ d.maxExtraHoursPerWorker ∧ d.maxExtraHoursPerWorker ≤ 50 ∧
  1 / 100 ≤ d.hourlyRate ∧ d.hourlyRate ≤ 1000

instance (d : CalculatorFormData) : Decidable (calculatorSchema d) := by
  unfold calculatorSchema
  infer_instance

/-- Output record of the engine (`Proposal` in the source), minus the two
presentational string fields `description` and `details`. -/
structure Proposal where
  option : String
  totalWeeklyHours : ℚ
  uncoveredHours : ℚ
  costImpact : ℚ
  costPercentageChange : ℚ
  efficiency : String
deriving DecidableEq

/-- Derived quantity `totalCurrentWeekHours` of the source. -/
def totalCurrentWeekHours (d : CalculatorFormData) : ℚ :=
  d.numberOfWorkers * d.currentWeekHoursPerWorker

/-- Derived quantity `totalTargetWeekHours` of the source. -/
def totalTargetWeekHours (d : CalculatorFormData) : ℚ :=
  d.numberOfWorkers * d.targetWeekHoursPerWorker

/-- Derived quantity `currentWeeklyCost` of the source. -/
def currentWeeklyCost (d : CalculatorFormData) : ℚ :=
  totalCurrentWeekHours d * d.hourlyRate

/-- Derived quantity `hourDifferencePerWorker` of the source. -/
def hourDifferencePerWorker (d : CalculatorFormData) : ℚ :=
  d.targetWeekHoursPerWorker - d.currentWeekHoursPerWorker

/-- Derived quantity `maxTotalExtraHours` of the source. -/
def maxTotalExtraHours (d : CalculatorFormData) : ℚ :=
  d.numberOfWorkers * d.maxExtraHoursPerWorker

/-- Case 2 local `hoursReductionPerWorker = Math.abs(hourDifferencePerWorker)`. -/
def hoursReductionPerWorker (d : CalculatorFormData) : ℚ :=
  |hourDifferencePerWorker d|

/-- Case 2 local `totalHoursToReplace`. -/
def totalHoursToReplace (d : CalculatorFormData) : ℚ :=
  d.numberOfWorkers * hoursReductionPerWorker d

/-- Case 2 local `additionalWorkersNeeded = Math.ceil(totalHoursToReplace / targetWeekHoursPerWorker)`. -/
def additionalWorkersNeeded (d : CalculatorFormData) : ℚ :=
  (⌈totalHoursToReplace d / d.targetWeekHoursPerWorker⌉ : ℤ)

/-- Case 2 local `actualAdditionalHours`. -/
def actualAdditionalHours (d : CalculatorFormData) : ℚ :=
  additionalWorkersNeeded d * d.targetWeekHoursPerWorker

/-- Case 2 local `newWorkersCost`. -/
def newWorkersCost (d : CalculatorFormData) : ℚ :=
  actualAdditionalHours d * d.hourlyRate

/-- Case 2 local `excessHours`. -/
def excessHours (d : CalculatorFormData) : ℚ :=
  actualAdditionalHours d - totalHoursToReplace d

/-- Case 2 local `workersWithExtraHours = Math.ceil(totalHoursToReplace / maxExtraHoursPerWorker)`,
computed by the source without any clamp to `numberOfWorkers`. -/
def workersWithExtraHours (d : CalculatorFormData) : ℚ :=
  (⌈totalHoursToReplace d / d.maxExtraHoursPerWorker⌉ : ℤ)

/-- Case 2 local `actualExtraHoursTotal`. -/
def actualExtraHoursTotal (d : CalculatorFormData) : ℚ :=
  min (totalHoursToReplace d) (workersWithExtraHours d * d.maxExtraHoursPerWorker)

/-- Case 2 local `remainingHoursNeeded`. -/
def remainingHoursNeeded (d : CalculatorFormData) : ℚ :=
  totalHoursToReplace d - actualExtraHoursTotal d

/-- Case 2 local `extraCost = actualExtraHoursTotal * hourlyRate * 1.5`. -/
def extraCost (d : CalculatorFormData) : ℚ :=
  actualExtraHoursTotal d * d.hourlyRate * 1.5

/-- Case 2 local `additionalWorkersForRemainder`. -/
def additionalWorkersForRemainder (d : CalculatorFormData) : ℚ :=
  (⌈remainingHoursNeeded d / d.targetWeekHoursPerWorker⌉ : ℤ)

/-- Case 2 local `newWorkersCostForRemainder`. -/
def newWorkersCostForRemainder (d : CalculatorFormData) : ℚ :=
  additionalWorkersForRemainder d * d.targetWeekHoursPerWorker * d.hourlyRate

/-- Case 2 local `totalCombinedCost`. -/
def totalCombinedCost (d : CalculatorFormData) : ℚ :=
  extraCost d + newWorkersCostForRemainder d

/-- Proposal pushed in Case 1 (target exceeds current: no deficit). -/
def noDeficitProposal (d : CalculatorFormData) : Proposal where
  option := "No Deficit - Target Exceeds Current"
  totalWeeklyHours := totalCurrentWeekHours d
  uncoveredHours := 0
  costImpact := 0
  costPercentageChange := 0
  efficiency := "No deficit"

/-- First proposal pushed in Case 2 (hire additional workers). -/
def hireProposal (d : CalculatorFormData) : Proposal where
  option := "Hire Additional Workers"
  totalWeeklyHours := totalCurrentWeekHours d + excessHours d
  uncoveredHours := 0
  costImpact := newWorkersCost d
  costPercentageChange := newWorkersCost d / currentWeeklyCost d * 100
  efficiency := "Fully covered"

/-- Overtime-only proposal of Case 2 (remainingHoursNeeded <= 0). -/
def redistributeProposal (d : CalculatorFormData) : Proposal where
  option := "Redistribute Hours with Overtime"
  totalWeeklyHours := totalCurrentWeekHours d
  uncoveredHours := 0
  costImpact := extraCost d
  costPercentageChange := extraCost d / currentWeeklyCost d * 100
  efficiency := "Fully covered"

/-- Hybrid proposal of Case 2 (remainingHoursNeeded > 0). -/
def hybridProposal (d : CalculatorFormData) : Proposal where
  option := "Hybrid: Overtime + Additional Workers"
  totalWeeklyHours := totalCurrentWeekHours d +
    (additionalWorkersForRemainder d * d.targetWeekHoursPerWorker - remainingHoursNeeded d)
  uncoveredHours := 0
  costImpact := totalCombinedCost d
  costPercentageChange := totalCombinedCost d / currentWeeklyCost d * 100
  efficiency := "Fully covered"

/-- Proposal pushed in Case 3 (hours per worker already at target). -/
def matchProposal (d : CalculatorFormData) : Proposal where
  option := "Current Capacity Matches Target"
  totalWeeklyHours := totalCurrentWeekHours d
  uncoveredHours := 0
  costImpact := 0
  costPercentageChange := 0
  efficiency := "Fully covered"

/-- The list `newProposals` as it stands right before the final sort:
the three-way branch on the sign of `hourDifferencePerWorker`, with the
overtime / hybrid sub-branch guarded by `maxExtraHoursPerWorker > 0` and
by the sign of `remainingHoursNeeded`. -/
def newProposals (d : CalculatorFormData) : List Proposal :=
  if hourDifferencePerWorker d > 0 then
    [noDeficitProposal d]
  else if hourDifferencePerWorker d < 0 then
    hireProposal d ::
      (if d.maxExtraHoursPerWorker > 0 then
        (if remainingHoursNeeded d ≤ 0 then [redistributeProposal d]
         else [hybridProposal d])
       else [])
  else
    [matchProposal d]

/-- Comparison relation realised by the sort comparator
`(a, b) => a.costImpact - b.costImpact`. -/
def costLe (a b : Proposal) : Prop :=
  a.costImpact ≤ b.costImpact

instance : DecidableRel costLe := fun a b =>
  inferInstanceAs (Decidable (a.costImpact ≤ b.costImpact))

instance : IsTotal Proposal costLe :=
  ⟨fun a b => le_total a.costImpact b.costImpact⟩

instance : IsTrans Proposal costLe :=
  ⟨fun _ _ _ hab hbc => le_trans hab hbc⟩

/-- The engine `calculateProposals`: emit `newProposals` and sort them
ascending by `costImpact` with a stable sort, as
`newProposals.sort((a, b) => a.costImpact - b.costImpact)` does. -/
def calculateProposals (d : CalculatorFormData) : List Proposal :=
  List.insertionSort costLe (newProposals d)

/-! Helper lemmas about the derived quantities. -/

theorem hourlyRate_pos {d : CalculatorFormData} (hv : calculatorSchema d) :
    0 < d.hourlyRate := by
  obtain ⟨-, -, -, -, -, -, -, -, h9, -⟩ := hv
  linarith

theorem hoursReductionPerWorker_eq {d : CalculatorFormData}
    (h : d.targetWeekHoursPerWorker ≤ d.currentWeekHoursPerWorker) :
    hoursReductionPerWorker d =
      d.currentWeekHoursPerWorker - d.targetWeekHoursPerWorker := by
  unfold hoursReductionPerWorker hourDifferencePerWorker
  rw [abs_of_nonpos (sub_nonpos.mpr h), neg_sub]

theorem numberOfWorkers_pos {d : CalculatorFormData} (hv : calculatorSchema d) :
    0 < d.numberOfWorkers := by
  obtain ⟨h1, -, -, -, -, -, -, -, -, -⟩ := hv
  linarith

theorem targetWeekHours_pos {d : CalculatorFormData} (hv : calculatorSchema d) :
    0 < d.targetWeekHoursPerWorker := by
  obtain ⟨-, -, -, -, h5, -, -, -, -, -⟩ := hv
  linarith

theorem totalHoursToReplace_pos {d : CalculatorFormData} (hv : calculatorSchema d)
    (h : d.targetWeekHoursPerWorker < d.currentWeekHoursPerWorker) :
    0 < totalHoursToReplace d := by
  unfold totalHoursToReplace
  rw [hoursReductionPerWorker_eq h.le]
  exact mul_pos (numberOfWorkers_pos hv) (sub_pos.mpr h)

theorem additionalWorkersNeeded_pos {d : CalculatorFormData} (hv : calculatorSchema d)
    (h : d.targetWeekHoursPerWorker < d.currentWeekHoursPerWorker) :
    0 < additionalWorkersNeeded d := by
  unfold additionalWorkersNeeded
  have hq : 0 < totalHoursToReplace d / d.targetWeekHoursPerWorker :=
    div_pos (totalHoursToReplace_pos hv h) (targetWeekHours_pos hv)
  exact_mod_cast Int.ceil_pos.mpr hq

theorem newWorkersCost_pos {d : CalculatorFormData} (hv : calculatorSchema d)
    (h : d.targetWeekHoursPerWorker < d.currentWeekHoursPerWorker) :
    0 < newWorkersCost d := by
  unfold newWorkersCost actualAdditionalHours
  exact mul_pos (mul_pos (additionalWorkersNeeded_pos hv h) (targetWeekHours_pos hv))
    (hourlyRate_pos hv)

theorem actualExtraHoursTotal_eq (d : CalculatorFormData)
    (hm : 0 < d.maxExtraHoursPerWorker) :
    actualExtraHoursTotal d = totalHoursToReplace d := by
  have hm' : d.maxExtraHoursPerWorker ≠ 0 := ne_of_gt hm
  have h1 : totalHoursToReplace d / d.maxExtraHoursPerWorker ≤
      ((⌈totalHoursToReplace d / d.maxExtraHoursPerWorker⌉ : ℤ) : ℚ) :=
    Int.le_ceil _
  have h2 : totalHoursToReplace d ≤
      workersWithExtraHours d * d.maxExtraHoursPerWorker := by
    have h3 := mul_le_mul_of_nonneg_right h1 hm.le
    rwa [div_mul_cancel₀ _ hm'] at h3
  unfold actualExtraHoursTotal
  exact min_eq_left h2

theorem remainingHoursNeeded_eq_zero (d : CalculatorFormData)
    (hm : 0 < d.maxExtraHoursPerWorker) :
    remainingHoursNeeded d = 0 := by
  unfold remainingHoursNeeded
  rw [actualExtraHoursTotal_eq d hm, sub_self]

theorem extraCost_pos {d : CalculatorFormData} (hv : calculatorSchema d)
    (h : d.targetWeekHoursPerWorker < d.currentWeekHoursPerWorker)
    (hm : 0 < d.maxExtraHoursPerWorker) :
    0 < extraCost d := by
  unfold extraCost
  rw [actualExtraHoursTotal_eq d hm]
  have h1 := totalHoursToReplace_pos hv h
  have h2 := hourlyRate_pos hv
  have h3 : (0 : ℚ) < 1.5 := by norm_num
  exact mul_pos (mul_pos h1 h2) h3

/-! Shape of the emitted list in each branch of the engine. -/

theorem newProposals_of_target_gt (d : CalculatorFormData)
    (h : d.currentWeekHoursPerWorker < d.targetWeekHoursPerWorker) :
    newProposals d = [noDeficitProposal d] := by
  have h1 : hourDifferencePerWorker d > 0 := sub_pos.mpr h
  unfold newProposals
  rw [if_pos h1]

theorem newProposals_of_target_lt_of_pos (d : CalculatorFormData)
    (h : d.targetWeekHoursPerWorker < d.currentWeekHoursPerWorker)
    (hm : 0 < d.maxExtraHoursPerWorker) :
    newProposals d = [hireProposal d, redistributeProposal d] := by
  have h1 : hourDifferencePerWorker d < 0 := sub_neg.mpr h
  have h0 : ¬ hourDifferencePerWorker d > 0 := not_lt.mpr h1.le
  unfold newProposals
  rw [if_neg h0, if_pos h1, if_pos hm,
    if_pos (le_of_eq (remainingHoursNeeded_eq_zero d hm))]

theorem newProposals_of_target_lt_of_nonpos (d : CalculatorFormData)
    (h : d.targetWeekHoursPerWorker < d.currentWeekHoursPerWorker)
    (hm : ¬ 0 < d.maxExtraHoursPerWorker) :
    newProposals d = [hireProposal d] := by
  have h1 : hourDifferencePerWorker d < 0 := sub_neg.mpr h
  have h0 : ¬ hourDifferencePerWorker d > 0 := not_lt.mpr h1.le
  unfold newProposals
  rw [if_neg h0, if_pos h1, if_neg hm]

theorem newProposals_of_target_eq (d : CalculatorFormData)
    (h : d.targetWeekHoursPerWorker = d.currentWeekHoursPerWorker) :
    newProposals d = [matchProposal d] := by
  have h1 : hourDifferencePerWorker d = 0 := sub_eq_zero.mpr h
  unfold newProposals
  rw [if_neg (by rw [h1]; exact lt_irrefl 0), if_neg (by rw [h1]; exact lt_irrefl 0)]

theorem newProposals_ne_nil (d : CalculatorFormData) : newProposals d ≠ [] := by
  unfold newProposals
  split_ifs <;> simp

/-! Evaluating the stable sort on the concrete list shapes. -/

theorem calculateProposals_singleton (d : CalculatorFormData) {p : Proposal}
    (h : newProposals d = [p]) : calculateProposals d = [p] := by
  unfold calculateProposals
  rw [h]
  rfl

theorem calculateProposals_pair (d : CalculatorFormData) {p q : Proposal}
    (h : newProposals d = [p, q]) :
    calculateProposals d =
      if p.costImpact ≤ q.costImpact then [p, q] else [q, p] := by
  unfold calculateProposals
  rw [h]
  by_cases hpq : p.costImpact ≤ q.costImpact
  · rw [if_pos hpq]
    simp [List.insertionSort, List.orderedInsert, costLe, hpq]
  · rw [if_neg hpq]
    simp [List.insertionSort, List.orderedInsert, costLe, hpq]

theorem mem_calculateProposals {d : CalculatorFormData} {p : Proposal} :
    p ∈ calculateProposals d ↔ p ∈ newProposals d := by
  unfold calculateProposals
  exact List.mem_insertionSort costLe

/-! Stability of the sort: for every cost value, the sublist of proposals
carrying that exact cost is unchanged by the sort, so ties retain their
emission order. -/

theorem filter_orderedInsert_of_eq (c : ℚ) (a : Proposal)
    (ha : a.costImpact = c) (l : List Proposal) :
    (List.orderedInsert costLe a l).filter (fun p => decide (p.costImpact = c)) =
      a :: l.filter (fun p => decide (p.costImpact = c)) := by
  induction l with
  | nil => simp [ha]
  | cons b t ih =>
    by_cases hab : costLe a b
    · simp [List.orderedInsert, hab, List.filter_cons, ha]
    · have hba : b.costImpact < a.costImpact := not_le.mp hab
      have hbc : ¬ b.costImpact = c := by
        rw [← ha]
        exact ne_of_lt hba
      simp [List.orderedInsert, hab, List.filter_cons, hbc, ih]

theorem filter_orderedInsert_of_ne (c : ℚ) (a : Proposal)
    (ha : ¬ a.costImpact = c) (l : List Proposal) :
    (List.orderedInsert costLe a l).filter (fun p => decide (p.costImpact = c)) =
      l.filter (fun p => decide (p.costImpact = c)) := by
  induction l with
  | nil => simp [ha]
  | cons b t ih =>
    by_cases hab : costLe a b
    · simp [List.orderedInsert, hab, List.filter_cons, ha]
    · simp [List.orderedInsert, hab, List.filter_cons, ih]

theorem filter_insertionSort_key (c : ℚ) (l : List Proposal) :
    (List.insertionSort costLe l).filter (fun p => decide (p.costImpact = c)) =
      l.filter (fun p => decide (p.costImpact = c)) := by
  induction l with
  | nil => rfl
  | cons a t ih =>
    by_cases ha : a.costImpact = c
    · rw [List.insertionSort, filter_orderedInsert_of_eq c a ha, ih,
        List.filter_cons]
      simp [ha]
    · rw [List.insertionSort, filter_orderedInsert_of_ne c a ha, ih,
        List.filter_cons]
      simp [ha]

/-- C1: for every valid configuration with
targetWeekHoursPerWorker > currentWeekHoursPerWorker, the engine returns
exactly one proposal, with option "No Deficit - Target Exceeds Current",
costImpact 0, efficiency "No deficit", uncoveredHours 0, and
totalWeeklyHours = numberOfWorkers * currentWeekHoursPerWorker. -/
theorem claim_C1 (d : CalculatorFormData) (hv : calculatorSchema d)
    (h : d.currentWeekHoursPerWorker < d.targetWeekHoursPerWorker) :
    calculateProposals d =
      [{ option := "No Deficit - Target Exceeds Current",
         totalWeeklyHours := d.numberOfWorkers * d.currentWeekHoursPerWorker,
         uncoveredHours := 0, costImpact := 0, costPercentageChange := 0,
         efficiency := "No deficit" }] := by
  rw [calculateProposals_singleton d (newProposals_of_target_gt d h)]
  rfl

/-- C9: for every valid configuration with
targetWeekHoursPerWorker = currentWeekHoursPerWorker, the engine returns
exactly one proposal, with option "Current Capacity Matches Target",
costImpact 0, uncoveredHours 0, and efficiency "Fully covered". -/
theorem claim_C9 (d : CalculatorFormData) (hv : calculatorSchema d)
    (h : d.targetWeekHoursPerWorker = d.currentWeekHoursPerWorker) :
    calculateProposals d =
      [{ option := "Current Capacity Matches Target",
         totalWeeklyHours := d.numberOfWorkers * d.currentWeekHoursPerWorker,
         uncoveredHours := 0, costImpact := 0, costPercentageChange := 0,
         efficiency := "Fully covered" }] := by
  rw [calculateProposals_singleton d (newProposals_of_target_eq d h)]
  rfl

/-- C2: for every valid configuration the returned list is non-empty and
sorted ascending by costImpact, and the sort is stable: for every cost
value, the sublist of proposals with exactly that costImpact is the same
in the result as in the emission-order list `newProposals`, so ties
retain their emission order. -/
theorem claim_C2 (d : CalculatorFormData) (hv : calculatorSchema d) :
    calculateProposals d ≠ [] ∧
    (calculateProposals d).Pairwise (fun a b => a.costImpact ≤ b.costImpact) ∧
    ∀ c : ℚ, (calculateProposals d).filter (fun p => decide (p.costImpact = c)) =
      (newProposals d).filter (fun p => decide (p.costImpact = c)) := by
  refine ⟨?_, ?_, ?_⟩
  · intro hc
    have hp := List.perm_insertionSort costLe (newProposals d)
    rw [calculateProposals] at hc
    rw [hc] at hp
    exact newProposals_ne_nil d hp.symm.eq_nil
  · exact List.sorted_insertionSort costLe (newProposals d)
  · intro c
    exact filter_insertionSort_key c (newProposals d)

/-- C3: for every valid configuration with
targetWeekHoursPerWorker < currentWeekHoursPerWorker, every emitted
proposal is fully covered with no uncovered hours, the additional worker
count is the ceiling of numberOfWorkers * (current - target) / target,
and a "Hire Additional Workers" proposal with cost
additionalWorkersNeeded * targetWeekHoursPerWorker * hourlyRate is in
the result. -/
theorem claim_C3 (d : CalculatorFormData) (hv : calculatorSchema d)
    (h : d.targetWeekHoursPerWorker < d.currentWeekHoursPerWorker) :
    (∀ p ∈ calculateProposals d,
      p.uncoveredHours = 0 ∧ p.efficiency = "Fully covered") ∧
    additionalWorkersNeeded d =
      ((⌈d.numberOfWorkers *
          (d.currentWeekHoursPerWorker - d.targetWeekHoursPerWorker) /
          d.targetWeekHoursPerWorker⌉ : ℤ) : ℚ) ∧
    ∃ p ∈ calculateProposals d, p.option = "Hire Additional Workers" ∧
      p.costImpact =
        additionalWorkersNeeded d * d.targetWeekHoursPerWorker * d.hourlyRate := by
  have hmem : hireProposal d ∈ newProposals d := by
    by_cases hm : 0 < d.maxExtraHoursPerWorker
    · rw [newProposals_of_target_lt_of_pos d h hm]
      exact List.mem_cons_self _ _
    · rw [newProposals_of_target_lt_of_nonpos d h hm]
      exact List.mem_cons_self _ _
  refine ⟨?_, ?_, ?_⟩
  · intro p hp
    rw [mem_calculateProposals] at hp
    by_cases hm : 0 < d.maxExtraHoursPerWorker
    · rw [newProposals_of_target_lt_of_pos d h hm] at hp
      simp only [List.mem_cons, List.not_mem_nil, or_false] at hp
      rcases hp with rfl | rfl
      · exact ⟨rfl, rfl⟩
      · exact ⟨rfl, rfl⟩
    · rw [newProposals_of_target_lt_of_nonpos d h hm] at hp
      simp only [List.mem_singleton] at hp
      subst hp
      exact ⟨rfl, rfl⟩
  · unfold additionalWorkersNeeded totalHoursToReplace
    rw [hoursReductionPerWorker_eq h.le]
  · exact ⟨hireProposal d, mem_calculateProposals.mpr hmem, rfl, rfl⟩

/-- C4: for every valid configuration with
targetWeekHoursPerWorker < currentWeekHoursPerWorker, exact arithmetic
forces actualExtraHoursTotal = totalHoursToReplace, hence
remainingHoursNeeded = 0 and the hybrid proposal is never emitted: with
maxExtraHoursPerWorker > 0 the result consists exactly of the
"Hire Additional Workers" and "Redistribute Hours with Overtime"
proposals, and with maxExtraHoursPerWorker = 0 exactly of the
"Hire Additional Workers" proposal. -/
theorem claim_C4 (d : CalculatorFormData) (hv : calculatorSchema d)
    (h : d.targetWeekHoursPerWorker < d.currentWeekHoursPerWorker) :
    (0 < d.maxExtraHoursPerWorker →
      actualExtraHoursTotal d = totalHoursToReplace d ∧
      remainingHoursNeeded d = 0 ∧
      ((calculateProposals d).map Proposal.option).Perm
        ["Hire Additional Workers", "Redistribute Hours with Overtime"]) ∧
    (d.maxExtraHoursPerWorker = 0 →
      (calculateProposals d).map Proposal.option = ["Hire Additional Workers"]) := by
  constructor
  · intro hm
    refine ⟨actualExtraHoursTotal_eq d hm, remainingHoursNeeded_eq_zero d hm, ?_⟩
    rw [calculateProposals_pair d (newProposals_of_target_lt_of_pos d h hm)]
    by_cases hpq : (hireProposal d).costImpact ≤ (redistributeProposal d).costImpact
    · rw [if_pos hpq]
      exact List.Perm.refl _
    · rw [if_neg hpq]
      exact List.Perm.swap "Hire Additional Workers"
        "Redistribute Hours with Overtime" []
  · intro hm0
    have hm : ¬ 0 < d.maxExtraHoursPerWorker := by
      rw [hm0]
      exact lt_irrefl 0
    rw [calculateProposals_singleton d (newProposals_of_target_lt_of_nonpos d h hm)]
    rfl

/-- C6: for every valid configuration every returned proposal has
nonnegative uncoveredHours, costImpact is zero exactly for the
no-deficit proposal of Case A or the trivial-match proposal of Case C,
and in particular every proposal returned when target < current has
strictly positive costImpact. -/
theorem claim_C6 (d : CalculatorFormData) (hv : calculatorSchema d) :
    (∀ p ∈ calculateProposals d, 0 ≤ p.uncoveredHours ∧
      (p.costImpact = 0 ↔
        (p.efficiency = "No deficit" ∨
          p.option = "Current Capacity Matches Target"))) ∧
    (d.targetWeekHoursPerWorker < d.currentWeekHoursPerWorker →
      ∀ p ∈ calculateProposals d, 0 < p.costImpact) := by
  have hpos : d.targetWeekHoursPerWorker < d.currentWeekHoursPerWorker →
      ∀ p ∈ newProposals d, 0 < p.costImpact := by
    intro h p hp
    by_cases hm : 0 < d.maxExtraHoursPerWorker
    · rw [newProposals_of_target_lt_of_pos d h hm] at hp
      simp only [List.mem_cons, List.not_mem_nil, or_false] at hp
      rcases hp with rfl | rfl
      · exact newWorkersCost_pos hv h
      · exact extraCost_pos hv h hm
    · rw [newProposals_of_target_lt_of_nonpos d h hm] at hp
      simp only [List.mem_singleton] at hp
      subst hp
      exact newWorkersCost_pos hv h
  refine ⟨?_, ?_⟩
  · intro p hp
    rw [mem_calculateProposals] at hp
    rcases lt_trichotomy d.targetWeekHoursPerWorker d.currentWeekHoursPerWorker
      with h | h | h
    · have hp0 := hp
      by_cases hm : 0 < d.maxExtraHoursPerWorker
      · rw [newProposals_of_target_lt_of_pos d h hm] at hp
        simp only [List.mem_cons, List.not_mem_nil, or_false] at hp
        rcases hp with rfl | rfl
        · exact ⟨le_refl 0, iff_of_false (ne_of_gt (hpos h _ hp0))
            (by rintro (he | ho)
                · simp [hireProposal] at he
                · simp [hireProposal] at ho)⟩
        · exact ⟨le_refl 0, iff_of_false (ne_of_gt (hpos h _ hp0))
            (by rintro (he | ho)
                · simp [redistributeProposal] at he
                · simp [redistributeProposal] at ho)⟩
      · rw [newProposals_of_target_lt_of_nonpos d h hm] at hp
        simp only [List.mem_singleton] at hp
        subst hp
        exact ⟨le_refl 0, iff_of_false (ne_of_gt (hpos h _ hp0))
          (by rintro (he | ho)
              · simp [hireProposal] at he
              · simp [hireProposal] at ho)⟩
    · rw [newProposals_of_target_eq d h] at hp
      simp only [List.mem_singleton] at hp
      subst hp
      exact ⟨le_refl 0, iff_of_true rfl (Or.inr rfl)⟩
    · rw [newProposals_of_target_gt d h] at hp
      simp only [List.mem_singleton] at hp
      subst hp
      exact ⟨le_refl 0, iff_of_true rfl (Or.inl rfl)⟩
  · intro h p hp
    rw [mem_calculateProposals] at hp
    exact hpos h p hp

/-- C7: in every returned proposal that includes overtime, the overtime
component of costImpact is exactly 1.5 * hourlyRate * (overtime hours
used): the overtime-only proposal costs
1.5 * hourlyRate * actualExtraHoursTotal, and the hybrid proposal costs
that plus the regular-rate cost of the remainder hires. -/
theorem claim_C7 (d : CalculatorFormData) (hv : calculatorSchema d) :
    ∀ p ∈ calculateProposals d,
      (p.option = "Redistribute Hours with Overtime" →
        p.costImpact = 1.5 * d.hourlyRate * actualExtraHoursTotal d) ∧
      (p.option = "Hybrid: Overtime + Additional Workers" →
        p.costImpact = 1.5 * d.hourlyRate * actualExtraHoursTotal d +
          newWorkersCostForRemainder d) := by
  intro p hp
  rw [mem_calculateProposals] at hp
  rcases lt_trichotomy d.targetWeekHoursPerWorker d.currentWeekHoursPerWorker
    with h | h | h
  · by_cases hm : 0 < d.maxExtraHoursPerWorker
    · rw [newProposals_of_target_lt_of_pos d h hm] at hp
      simp only [List.mem_cons, List.not_mem_nil, or_false] at hp
      rcases hp with rfl | rfl
      · exact ⟨fun he => by simp [hireProposal] at he,
          fun he => by simp [hireProposal] at he⟩
      · refine ⟨fun _ => ?_, fun he => by simp [redistributeProposal] at he⟩
        show extraCost d = 1.5 * d.hourlyRate * actualExtraHoursTotal d
        unfold extraCost
        ring
    · rw [newProposals_of_target_lt_of_nonpos d h hm] at hp
      simp only [List.mem_singleton] at hp
      subst hp
      exact ⟨fun he => by simp [hireProposal] at he,
        fun he => by simp [hireProposal] at he⟩
  · rw [newProposals_of_target_eq d h] at hp
    simp only [List.mem_singleton] at hp
    subst hp
    exact ⟨fun he => by simp [matchProposal] at he,
      fun he => by simp [matchProposal] at he⟩
  · rw [newProposals_of_target_gt d h] at hp
    simp only [List.mem_singleton] at hp
    subst hp
    exact ⟨fun he => by simp [noDeficitProposal] at he,
      fun he => by simp [noDeficitProposal] at he⟩

/-- C10: the proposal computation is deterministic and referentially
transparent: equal configurations produce equal proposal lists, and the
computation is a function of the input configuration alone. -/
theorem claim_C10 (d₁ d₂ : CalculatorFormData) (h : d₁ = d₂) :
    calculateProposals d₁ = calculateProposals d₂ := by
  rw [h]

/-- Concrete configuration of the worked example in the spec: 10 workers,
50 current hours per worker, 40 target hours, 5 max extra hours, rate 25. -/
def sampleConfig : CalculatorFormData := ⟨10, 50, 40, 5, 25⟩

/-- Concrete configuration with target above current hours. -/
def growthConfig : CalculatorFormData := ⟨10, 40, 50, 5, 25⟩

/-- Concrete configuration with target equal to current hours. -/
def matchConfig : CalculatorFormData := ⟨10, 40, 40, 5, 25⟩

section ConcreteEvaluation

attribute [local semireducible] Rat.add Rat.mul Rat.inv Rat.sub Rat.ofScientific

/-- C5: evaluation of the code at the boundary input numberOfWorkers = 10,
current = 50, target = 40, maxExtra = 5, rate = 25, where
workersWithExtraHours = ceil(100 / 5) = 20 exceeds the 10 available
workers: the engine keeps the unclamped value 20 and still emits the
overtime proposal with efficiency "Fully covered" and uncoveredHours 0,
so it neither clamps workersWithExtraHours to numberOfWorkers nor flags
the case as partial coverage. -/
theorem claim_C5_code_eval :
    workersWithExtraHours sampleConfig = 20 ∧
    sampleConfig.numberOfWorkers = 10 ∧
    ∃ p ∈ calculateProposals sampleConfig,
      p.option = "Redistribute Hours with Overtime" ∧
      p.efficiency = "Fully covered" ∧ p.uncoveredHours = 0 := by
  decide

/-- C8: on the worked example (10 workers, 50 current, 40 target,
5 max extra, rate 25) the engine emits the "Hire Additional Workers"
proposal with 3 additional workers and cost 3000 and a single overtime
proposal "Redistribute Hours with Overtime" with cost 3750, sorted with
the 3000 proposal first. -/
theorem claim_C8 :
    additionalWorkersNeeded sampleConfig = 3 ∧
    (calculateProposals sampleConfig).map (fun p => (p.option, p.costImpact)) =
      [("Hire Additional Workers", 3000),
        ("Redistribute Hours with Overtime", 3750)] := by
  decide

/-- Witness for C1 at a concrete valid configuration. -/
theorem claim_C1_witness :
    calculateProposals growthConfig =
      [{ option := "No Deficit - Target Exceeds Current",
         totalWeeklyHours :=
           growthConfig.numberOfWorkers * growthConfig.currentWeekHoursPerWorker,
         uncoveredHours := 0, costImpact := 0, costPercentageChange := 0,
         efficiency := "No deficit" }] :=
  claim_C1 growthConfig (by decide) (by decide)

/-- Witness for C2 at a concrete valid configuration. -/
theorem claim_C2_witness :
    calculateProposals growthConfig ≠ [] ∧
    (calculateProposals growthConfig).Pairwise
      (fun a b => a.costImpact ≤ b.costImpact) ∧
    (calculateProposals growthConfig).filter
        (fun p => decide (p.costImpact = 0)) =
      (newProposals growthConfig).filter (fun p => decide (p.costImpact = 0)) :=
  ⟨(claim_C2 growthConfig (by decide)).1, (claim_C2 growthConfig (by decide)).2.1,
    (claim_C2 growthConfig (by decide)).2.2 0⟩

/-- Witness for C3 at a concrete valid configuration. -/
theorem claim_C3_witness :
    additionalWorkersNeeded sampleConfig =
      ((⌈sampleConfig.numberOfWorkers *
          (sampleConfig.currentWeekHoursPerWorker -
            sampleConfig.targetWeekHoursPerWorker) /
          sampleConfig.targetWeekHoursPerWorker⌉ : ℤ) : ℚ) :=
  (claim_C3 sampleConfig (by decide) (by decide)).2.1

/-- Witness for C4 at a concrete valid configuration. -/
theorem claim_C4_witness :
    actualExtraHoursTotal sampleConfig = totalHoursToReplace sampleConfig ∧
    remainingHoursNeeded sampleConfig = 0 ∧
    ((calculateProposals sampleConfig).map Proposal.option).Perm
      ["Hire Additional Workers", "Redistribute Hours with Overtime"] :=
  (claim_C4 sampleConfig (by decide) (by decide)).1 (by decide)

/-- Witness for C6 at a concrete valid configuration and proposal. -/
theorem claim_C6_witness :
    0 ≤ (hireProposal sampleConfig).uncoveredHours ∧
    ((hireProposal sampleConfig).costImpact = 0 ↔
      ((hireProposal sampleConfig).efficiency = "No deficit" ∨
        (hireProposal sampleConfig).option = "Current Capacity Matches Target")) :=
  (claim_C6 sampleConfig (by decide)).1 (hireProposal sampleConfig) (by decide)

/-- Witness for C7 at a concrete valid configuration and proposal. -/
theorem claim_C7_witness :
    (redistributeProposal sampleConfig).costImpact =
      1.5 * sampleConfig.hourlyRate * actualExtraHoursTotal sampleConfig :=
  (claim_C7 sampleConfig (by decide)
    (redistributeProposal sampleConfig) (by decide)).1 rfl

/-- Witness for C9 at a concrete valid configuration. -/
theorem claim_C9_witness :
    calculateProposals matchConfig =
      [{ option := "Current Capacity Matches Target",
         totalWeeklyHours :=
           matchConfig.numberOfWorkers * matchConfig.currentWeekHoursPerWorker,
         uncoveredHours := 0, costImpact := 0, costPercentageChange := 0,
         efficiency := "Fully covered" }] :=
  claim_C9 matchConfig (by decide) (by decide)

/-- Witness for C10 at a concrete configuration. -/
theorem claim_C10_witness :
    calculateProposals sampleConfig = calculateProposals sampleConfig :=
  claim_C10 sampleConfig sampleConfig rfl

end ConcreteEvaluation

end LaborCalc
